import Mathlib

/-!
Shallow embedding of the BlockPass substrate contracts
(`src/singapore/29-BlockPass/src/substrate/lib.rs`, the `event_manager`
ink! contract, and `nft.rs`, the `ticket_nft` ink! contract).

Modelling choices:
* `AccountId` is modelled as `Nat` (an opaque caller identifier).
* `u64` / `u128` fields are modelled as `Nat`.  ink! contracts are built
  with overflow checks enabled, so an increment past the word size traps
  instead of wrapping; the model covers every non-trapping execution.
* `ink_storage::collections::HashMap` is modelled as an association list
  with key type `Nat` (`lookupA` / `insertA`, insert-replaces-or-appends,
  matching the overwrite semantics of `HashMap::insert` and `get_mut`
  followed by in-place mutation).
* `ink_storage::collections::Vec` (`StorageVec`) is a `List` with `push`
  appending at the end.
* Each `#[ink(message)]` taking `&mut self` becomes a function
  `State -> args -> result × State`; messages taking `&self` cannot
  mutate and become pure functions of the state.
* The environment values `self.env().caller()` and
  `self.env().transferred_balance()` become explicit parameters.
* The cross-contract call `nft_contract.mint_ticket(caller, token_uri)`
  in `purchase_ticket` targets whatever contract sits at the stored
  `ticket_nft_address`; its returned token id is therefore an explicit
  parameter `mint_ret` of the model.
-/

namespace BlockPass

/-! ## Association-list maps (model of `ink_storage` HashMap) -/

/-- Lookup in an association list keyed by `Nat`; the model of
`HashMap::get` / `get_mut` (read part). -/
def lookupA {α : Type} : List (Nat × α) → Nat → Option α
  | [], _ => none
  | p :: rest, k => if p.1 = k then some p.2 else lookupA rest k

/-- Insert-or-replace in an association list; the model of
`HashMap::insert` and of writing back through `get_mut`. -/
def insertA {α : Type} : List (Nat × α) → Nat → α → List (Nat × α)
  | [], k, v => [(k, v)]
  | p :: rest, k, v => if p.1 = k then (k, v) :: rest else p :: insertA rest k v

theorem lookupA_insertA_self {α : Type} (m : List (Nat × α)) (k : Nat) (v : α) :
    lookupA (insertA m k v) k = some v := by
  induction m with
  | nil => simp [insertA, lookupA]
  | cons p rest ih =>
    by_cases h : p.1 = k
    · simp [insertA, h, lookupA]
    · simp [insertA, h, lookupA, ih]

theorem lookupA_insertA_ne {α : Type} (m : List (Nat × α)) (k k' : Nat) (v : α)
    (h : k ≠ k') : lookupA (insertA m k v) k' = lookupA m k' := by
  induction m with
  | nil => simp [insertA, lookupA, h]
  | cons p rest ih =>
    by_cases hp : p.1 = k
    · subst hp
      simp [insertA, lookupA, h]
    · by_cases hp' : p.1 = k'
      · simp [insertA, lookupA, hp, hp', Ne.symm h]
      · simp [insertA, lookupA, hp, hp', ih]

theorem all_insertA {α : Type} (g : α → Bool) (m : List (Nat × α)) (k : Nat) (v : α)
    (h1 : m.all (fun p => g p.2) = true) (h2 : g v = true) :
    (insertA m k v).all (fun p => g p.2) = true := by
  induction m with
  | nil => simp [insertA, h2]
  | cons p rest ih =>
    simp only [List.all_cons, Bool.and_eq_true] at h1
    by_cases hp : p.1 = k
    · simp [insertA, hp, h2, h1.2]
    · simp [insertA, hp, h1.1, ih h1.2]

theorem all_lookupA {α : Type} (g : α → Bool) (m : List (Nat × α)) (k : Nat) (v : α)
    (h1 : m.all (fun p => g p.2) = true) (h2 : lookupA m k = some v) :
    g v = true := by
  induction m with
  | nil => simp [lookupA] at h2
  | cons p rest ih =>
    simp only [List.all_cons, Bool.and_eq_true] at h1
    by_cases hp : p.1 = k
    · simp [lookupA, hp] at h2
      exact h2 ▸ h1.1
    · simp [lookupA, hp] at h2
      exact ih h1.2 h2

/-! ## Data model (lib.rs lines 11-39) -/

/-- `EventDetails` struct, lib.rs lines 21-27.  Note that it has no
`active` field: `active` lives on `Event`, not on `EventDetails`. -/
structure EventDetails where
  title : String
  date : String
  location : String
  ticket_price : Nat
  max_tickets : Nat
  deriving DecidableEq, Repr

/-- `Event` struct, lib.rs lines 31-39. -/
structure Event where
  event_id : Nat
  details : EventDetails
  ticket_nft_address : Nat
  attendees : List Nat
  tickets_sold : Nat
  active : Bool
  host : Nat
  deriving DecidableEq, Repr

/-- `EventManager` storage struct, lib.rs lines 12-17. -/
structure EventManager where
  owner : Nat
  next_event_id : Nat
  events : List (Nat × Event)
  user_registered_events : List (Nat × List Nat)
  deriving DecidableEq, Repr

/-- `EventManager::new`, lib.rs lines 43-50; `caller` is
`Self::env().caller()`. -/
def EventManager.new (caller : Nat) : EventManager :=
  { owner := caller
    next_event_id := 1
    events := []
    user_registered_events := [] }

/-- `create_event`, lib.rs lines 53-73; `caller` is `self.env().caller()`.
Returns the assigned event id together with the updated storage. -/
def create_event (s : EventManager) (caller : Nat) (details : EventDetails)
    (ticket_nft_address : Nat) : Nat × EventManager :=
  let event_id := s.next_event_id
  let event : Event :=
    { event_id := event_id
      details := details
      ticket_nft_address := ticket_nft_address
      attendees := []
      tickets_sold := 0
      active := true
      host := caller }
  (event_id, { s with
      next_event_id := s.next_event_id + 1
      events := insertA s.events event_id event })

/-- `purchase_ticket`, lib.rs lines 76-113.  `caller` is
`self.env().caller()`, `payment` is `self.env().transferred_balance()`,
and `mint_ret` is the token id returned by the cross-contract call
`nft_contract.mint_ticket(caller, token_uri)` (the contract at
`ticket_nft_address` is arbitrary, so its answer is a parameter).

The source's sentinel check on line 97 reads
`if minted_ticket_id == 0 { return false; }` where `minted_ticket_id`
is an identifier that is never bound anywhere in the crate (the mint
result is bound as `token_id` on line 95), so the crate does not
compile.  This model uses the only bindable reading: the check examines
the actual mint result. -/
def purchase_ticket (s : EventManager) (caller payment : Nat) (event_id : Nat)
    (token_uri : String) (mint_ret : Nat) : Bool × EventManager :=
  match lookupA s.events event_id with
  | none => (false, s)
  | some event =>
    if event.active ∧ event.tickets_sold < event.details.max_tickets ∧
        event.details.ticket_price ≤ payment then
      if mint_ret = 0 then (false, s)
      else
        let event' := { event with
            attendees := event.attendees ++ [caller]
            tickets_sold := event.tickets_sold + 1 }
        let user_events := (lookupA s.user_registered_events caller).getD []
        (true, { s with
            events := insertA s.events event_id event'
            user_registered_events :=
              insertA s.user_registered_events caller (user_events ++ [event_id]) })
    else (false, s)

/-- `deactivate_event`, lib.rs lines 116-130; `caller` is
`self.env().caller()`. -/
def deactivate_event (s : EventManager) (caller : Nat) (event_id : Nat) :
    Bool × EventManager :=
  match lookupA s.events event_id with
  | none => (false, s)
  | some event =>
    if event.host = caller then
      (true, { s with events := insertA s.events event_id { event with active := false } })
    else (false, s)

/-- `get_event_details`, lib.rs lines 133-135 (`&self`, read-only). -/
def get_event_details (s : EventManager) (event_id : Nat) : Option EventDetails :=
  (lookupA s.events event_id).map (fun e => e.details)

/-- `get_event_attendees`, lib.rs lines 138-140 (`&self`, read-only). -/
def get_event_attendees (s : EventManager) (event_id : Nat) : Option (List Nat) :=
  (lookupA s.events event_id).map (fun e => e.attendees)

/-- `get_ticket_nft_address`, lib.rs lines 143-145 (`&self`, read-only). -/
def get_ticket_nft_address (s : EventManager) (event_id : Nat) : Option Nat :=
  (lookupA s.events event_id).map (fun e => e.ticket_nft_address)

/-- `get_registered_events`, lib.rs lines 148-150 (`&self`, read-only). -/
def get_registered_events (s : EventManager) (user : Nat) : Option (List Nat) :=
  lookupA s.user_registered_events user

/-! ## Ticket issuer (nft.rs) -/

/-- `TicketNFT` storage struct, nft.rs lines 10-17. -/
structure TicketNFT where
  owner : Nat
  name : String
  symbol : String
  token_id_counter : Nat
  tokens : List (Nat × Nat)
  token_uris : List (Nat × String)
  deriving DecidableEq, Repr

/-- `TicketNFT::new`, nft.rs lines 21-30. -/
def TicketNFT.new (caller : Nat) (name symbol : String) : TicketNFT :=
  { owner := caller
    name := name
    symbol := symbol
    token_id_counter := 1
    tokens := []
    token_uris := [] }

/-- `mint_ticket`, nft.rs lines 33-39. -/
def mint_ticket (t : TicketNFT) (recipient : Nat) (token_uri : String) :
    Nat × TicketNFT :=
  let token_id := t.token_id_counter
  (token_id, { t with
      token_id_counter := t.token_id_counter + 1
      tokens := insertA t.tokens token_id recipient
      token_uris := insertA t.token_uris token_id token_uri })

/-- `get_owner_of`, nft.rs lines 42-44 (`&self`, read-only). -/
def get_owner_of (t : TicketNFT) (token_id : Nat) : Option Nat :=
  lookupA t.tokens token_id

/-- `get_token_uri`, nft.rs lines 47-49 (`&self`, read-only). -/
def get_token_uri (t : TicketNFT) (token_id : Nat) : Option String :=
  lookupA t.token_uris token_id

/-! ## Operation algebra

One constructor per `#[ink(message)]` of each contract, so that claims
about arbitrary call sequences can be stated. -/

/-- A call to one of the `EventManager` messages, with the environment
values (caller, transferred balance, cross-contract mint result) carried
as data. -/
inductive RegOp where
  | create (caller : Nat) (details : EventDetails) (ticket_nft_address : Nat)
  | purchase (caller payment event_id : Nat) (token_uri : String) (mint_ret : Nat)
  | deactivate (caller event_id : Nat)
  | getDetails (event_id : Nat)
  | getAttendees (event_id : Nat)
  | getNftAddress (event_id : Nat)
  | getRegistered (user : Nat)
  deriving DecidableEq, Repr

/-- Return value of an `EventManager` message. -/
inductive RegOut where
  | idOut (n : Nat)
  | okOut (b : Bool)
  | detailsOut (d : Option EventDetails)
  | accountsOut (l : Option (List Nat))
  | accountOut (a : Option Nat)
  | idsOut (l : Option (List Nat))
  deriving DecidableEq, Repr

/-- Dispatch one `EventManager` message.  Messages taking `&self` return
the state untouched, as the borrow discipline of the source forces. -/
def regStep (s : EventManager) : RegOp → RegOut × EventManager
  | RegOp.create c d a =>
    let r := create_event s c d a
    (RegOut.idOut r.1, r.2)
  | RegOp.purchase c pay eid uri mr =>
    let r := purchase_ticket s c pay eid uri mr
    (RegOut.okOut r.1, r.2)
  | RegOp.deactivate c eid =>
    let r := deactivate_event s c eid
    (RegOut.okOut r.1, r.2)
  | RegOp.getDetails eid => (RegOut.detailsOut (get_event_details s eid), s)
  | RegOp.getAttendees eid => (RegOut.accountsOut (get_event_attendees s eid), s)
  | RegOp.getNftAddress eid => (RegOut.accountOut (get_ticket_nft_address s eid), s)
  | RegOp.getRegistered u => (RegOut.idsOut (get_registered_events s u), s)

/-- Whether a registry message takes `&self` in the source (a read). -/
def RegOp.isRead : RegOp → Bool
  | RegOp.create _ _ _ => false
  | RegOp.purchase _ _ _ _ _ => false
  | RegOp.deactivate _ _ => false
  | RegOp.getDetails _ => true
  | RegOp.getAttendees _ => true
  | RegOp.getNftAddress _ => true
  | RegOp.getRegistered _ => true

/-- Run a sequence of `EventManager` messages, keeping only the state. -/
def regRun (s : EventManager) (ops : List RegOp) : EventManager :=
  ops.foldl (fun st op => (regStep st op).2) s

/-- A call to one of the `TicketNFT` messages. -/
inductive NftOp where
  | mint (recipient : Nat) (token_uri : String)
  | getOwner (token_id : Nat)
  | getUri (token_id : Nat)
  deriving DecidableEq, Repr

/-- Return value of a `TicketNFT` message. -/
inductive NftOut where
  | idOut (n : Nat)
  | ownerOut (a : Option Nat)
  | uriOut (u : Option String)
  deriving DecidableEq, Repr

/-- Dispatch one `TicketNFT` message. -/
def nftStep (t : TicketNFT) : NftOp → NftOut × TicketNFT
  | NftOp.mint r uri =>
    let m := mint_ticket t r uri
    (NftOut.idOut m.1, m.2)
  | NftOp.getOwner tid => (NftOut.ownerOut (get_owner_of t tid), t)
  | NftOp.getUri tid => (NftOut.uriOut (get_token_uri t tid), t)

/-- Whether an issuer message takes `&self` in the source (a read). -/
def NftOp.isRead : NftOp → Bool
  | NftOp.mint _ _ => false
  | NftOp.getOwner _ => true
  | NftOp.getUri _ => true

/-! ## Per-event bookkeeping invariant -/

/-- The spec's per-event invariant:
`tickets_sold == len(attendees) <= max_tickets`. -/
def eventOk (e : Event) : Bool :=
  (e.tickets_sold == e.attendees.length) &&
    decide (e.tickets_sold ≤ e.details.max_tickets)

/-- The invariant holds of every event stored in the registry. -/
def invariantB (s : EventManager) : Bool :=
  s.events.all (fun p => eventOk p.2)

/-! ## Id sequences -/

/-- The list `[a, a+1, ..., a+n-1]`: the shape of the ids handed out by a
monotone counter. -/
def idRange (a : Nat) : Nat → List Nat
  | 0 => []
  | Nat.succ n => a :: idRange (a + 1) n

/-- The ids returned by a sequence of `create_event` calls, each argument
triple being (caller, details, ticket_nft_address). -/
def runCreates (s : EventManager) : List (Nat × EventDetails × Nat) → List Nat
  | [] => []
  | a :: rest =>
    let r := create_event s a.1 a.2.1 a.2.2
    r.1 :: runCreates r.2 rest

/-- The ids returned by a sequence of `mint_ticket` calls, each argument
pair being (recipient, token_uri). -/
def runMints (t : TicketNFT) : List (Nat × String) → List Nat
  | [] => []
  | a :: rest =>
    let r := mint_ticket t a.1 a.2
    r.1 :: runMints r.2 rest

/-- The issuer state after a sequence of `mint_ticket` calls. -/
def runMintsState (t : TicketNFT) : List (Nat × String) → TicketNFT
  | [] => t
  | a :: rest => runMintsState (mint_ticket t a.1 a.2).2 rest

/-! ## Concrete sample states (used by the scenario and the witnesses) -/

/-- Sample event details (the shape used by the repo's own tests). -/
def d₀ : EventDetails :=
  { title := "Concert"
    date := "2024-12-01"
    location := "Stadium"
    ticket_price := 1000
    max_tickets := 100 }

/-- A fresh registry deployed by caller 0. -/
def s₀ : EventManager := EventManager.new 0

/-- The registry after host 1 created one event (id 1, issuer address 7). -/
def s₁ : EventManager := (create_event s₀ 1 d₀ 7).2

/-- The event record stored under id 1 in `s₁`. -/
def ev₁ : Event :=
  { event_id := 1
    details := d₀
    ticket_nft_address := 7
    attendees := []
    tickets_sold := 0
    active := true
    host := 1 }

/-- A fresh issuer deployed by caller 0. -/
def t₀ : TicketNFT := TicketNFT.new 0 "BlockPassNFT" "BPNT"

/-- Sample token uri. -/
def uri₀ : String := "TicketURI"

/-! ## Supporting lemmas -/

theorem invariantB_create (s : EventManager) (c : Nat) (d : EventDetails) (a : Nat)
    (h : invariantB s = true) : invariantB (create_event s c d a).2 = true := by
  refine all_insertA eventOk s.events s.next_event_id _ h ?_
  simp [eventOk]

theorem invariantB_purchase (s : EventManager) (c pay eid : Nat) (uri : String) (mr : Nat)
    (h : invariantB s = true) : invariantB (purchase_ticket s c pay eid uri mr).2 = true := by
  unfold purchase_ticket
  split
  next => exact h
  next event heq =>
    split
    next hg =>
      split
      next => exact h
      next hm =>
        have he := all_lookupA eventOk s.events eid event h heq
        simp only [eventOk, Bool.and_eq_true, beq_iff_eq, decide_eq_true_eq] at he
        show (insertA s.events eid
            { event with
              attendees := event.attendees ++ [c]
              tickets_sold := event.tickets_sold + 1 }).all (fun p => eventOk p.2) = true
        refine all_insertA eventOk s.events eid _ h ?_
        simp only [eventOk, Bool.and_eq_true, beq_iff_eq, decide_eq_true_eq,
          List.length_append, List.length_cons, List.length_nil]
        constructor
        · omega
        · have := hg.2.1
          omega
    next hg => exact h

theorem invariantB_deactivate (s : EventManager) (c eid : Nat)
    (h : invariantB s = true) : invariantB (deactivate_event s c eid).2 = true := by
  unfold deactivate_event
  split
  next => exact h
  next event heq =>
    split
    next hh =>
      show (insertA s.events eid { event with active := false }).all
        (fun p => eventOk p.2) = true
      exact all_insertA eventOk s.events eid _ h (all_lookupA eventOk s.events eid event h heq)
    next => exact h

theorem invariantB_regStep (s : EventManager) (op : RegOp) (h : invariantB s = true) :
    invariantB (regStep s op).2 = true := by
  cases op with
  | create c d a => exact invariantB_create s c d a h
  | purchase c pay eid uri mr => exact invariantB_purchase s c pay eid uri mr h
  | deactivate c eid => exact invariantB_deactivate s c eid h
  | getDetails eid => exact h
  | getAttendees eid => exact h
  | getNftAddress eid => exact h
  | getRegistered u => exact h

theorem invariantB_regRun (ops : List RegOp) :
    ∀ s : EventManager, invariantB s = true → invariantB (regRun s ops) = true := by
  induction ops with
  | nil => intro s h; exact h
  | cons op rest ih => intro s h; exact ih _ (invariantB_regStep s op h)

theorem runCreates_eq (l : List (Nat × EventDetails × Nat)) :
    ∀ s : EventManager, runCreates s l = idRange s.next_event_id l.length := by
  induction l with
  | nil => intro s; rfl
  | cons a rest ih =>
    intro s
    show s.next_event_id :: runCreates (create_event s a.1 a.2.1 a.2.2).2 rest =
      s.next_event_id :: idRange (s.next_event_id + 1) rest.length
    rw [ih]
    rfl

theorem runMints_eq (l : List (Nat × String)) :
    ∀ t : TicketNFT, runMints t l = idRange t.token_id_counter l.length := by
  induction l with
  | nil => intro t; rfl
  | cons a rest ih =>
    intro t
    show t.token_id_counter :: runMints (mint_ticket t a.1 a.2).2 rest =
      t.token_id_counter :: idRange (t.token_id_counter + 1) rest.length
    rw [ih]
    rfl

theorem idRange_chain (n : Nat) :
    ∀ a : Nat, List.Chain' (fun x y => x < y) (idRange a n) := by
  induction n with
  | zero => intro a; exact List.chain'_nil
  | succ m ih =>
    intro a
    cases m with
    | zero => exact List.chain'_singleton a
    | succ k =>
      have hsh : idRange a (Nat.succ (Nat.succ k)) = a :: (a + 1) :: idRange (a + 2) k := rfl
      rw [hsh, List.chain'_cons]
      refine ⟨Nat.lt_succ_self a, ?_⟩
      have := ih (a + 1)
      rwa [show idRange (a + 1) (Nat.succ k) = (a + 1) :: idRange (a + 2) k from rfl] at this

theorem mem_idRange_le (n : Nat) : ∀ a x : Nat, x ∈ idRange a n → a ≤ x := by
  induction n with
  | zero => intro a x hx; simp [idRange] at hx
  | succ m ih =>
    intro a x hx
    rw [show idRange a (Nat.succ m) = a :: idRange (a + 1) m from rfl] at hx
    rcases List.mem_cons.mp hx with h | h
    · subst h; exact Nat.le_refl x
    · exact Nat.le_of_succ_le (ih (a + 1) x h)

theorem idRange_nodup (n : Nat) : ∀ a : Nat, (idRange a n).Nodup := by
  induction n with
  | zero => intro a; exact List.nodup_nil
  | succ m ih =>
    intro a
    rw [show idRange a (Nat.succ m) = a :: idRange (a + 1) m from rfl]
    refine List.nodup_cons.mpr ⟨?_, ih (a + 1)⟩
    intro hmem
    have := mem_idRange_le m (a + 1) a hmem
    omega

theorem runMintsState_counter (l : List (Nat × String)) :
    ∀ t : TicketNFT, t.token_id_counter ≤ (runMintsState t l).token_id_counter := by
  induction l with
  | nil => intro t; exact Nat.le_refl _
  | cons a rest ih =>
    intro t
    exact Nat.le_trans (Nat.le_succ _) (ih (mint_ticket t a.1 a.2).2)

/-! ## Claim theorems -/

/-- Claim C1: if the paired issuer's mint call signals failure by returning
the sentinel invalid token id 0, `purchase_ticket` returns false and
performs no registry-side mutation: no attendee is appended, `tickets_sold`
is not incremented, and no `UserRegistry` entry is added or extended (the
returned state is exactly the input state).  The theorem is about the
intended reading of lib.rs line 97 (the sentinel check applied to the real
mint result); the source as written compares an identifier that is never
bound, see the doc comment of `purchase_ticket`. -/
theorem purchase_ticket_mint_sentinel_aborts (s : EventManager)
    (caller payment event_id : Nat) (uri : String) :
    purchase_ticket s caller payment event_id uri 0 = (false, s) := by
  unfold purchase_ticket
  split
  next => rfl
  next event heq =>
    split
    next hg => rw [if_pos rfl]
    next hg => rfl

/-- Claim C2: for every event and after every sequence of registry
operations (create_event, purchase_ticket, deactivate_event and the read
messages, with arbitrary callers, payments and mint results), the invariant
`tickets_sold == length(attendees) <= max_tickets` holds for every stored
event; in particular `tickets_sold` never exceeds `max_tickets`. -/
theorem registry_invariant_any_sequence (c : Nat) (ops : List RegOp) :
    invariantB (regRun (EventManager.new c) ops) = true :=
  invariantB_regRun ops (EventManager.new c) rfl

/-- Claim C3: for every event and every caller, `purchase_ticket` invoked
with a payment strictly below the event's ticket price returns false and
leaves the whole registry state (attendees, tickets_sold, UserRegistry)
unchanged. -/
theorem purchase_ticket_underpayment_no_change (s : EventManager)
    (caller payment event_id : Nat) (uri : String) (mint_ret : Nat) (e : Event)
    (hl : lookupA s.events event_id = some e)
    (hp : payment < e.details.ticket_price) :
    purchase_ticket s caller payment event_id uri mint_ret = (false, s) := by
  have hc : ¬(e.active = true ∧ e.tickets_sold < e.details.max_tickets ∧
      e.details.ticket_price ≤ payment) := by
    rintro ⟨-, -, hle⟩
    omega
  simp only [purchase_ticket, hl]
  rw [if_neg hc]

/-- Witness for C3: on the registry `s₁` holding event 1 with price 1000,
a purchase paying 500 returns false and leaves the state unchanged. -/
theorem purchase_ticket_underpayment_no_change_witness :
    lookupA s₁.events 1 = some ev₁ ∧ 500 < ev₁.details.ticket_price ∧
    purchase_ticket s₁ 2 500 1 uri₀ 9 = (false, s₁) :=
  ⟨rfl, by decide,
    purchase_ticket_underpayment_no_change s₁ 2 500 1 uri₀ 9 ev₁ rfl (by decide)⟩

/-- Claim C4: successive `create_event` calls on one fresh registry return
the ids 1, 2, 3, ... in order (strictly increasing, starting at 1, no id
reused), and successive `mint_ticket` calls on one fresh issuer return the
ids 1, 2, 3, ... in order likewise. -/
theorem ids_strictly_increasing_from_one (c₁ : Nat)
    (cargs : List (Nat × EventDetails × Nat)) (c₂ : Nat) (nm sym : String)
    (margs : List (Nat × String)) :
    runCreates (EventManager.new c₁) cargs = idRange 1 cargs.length ∧
    List.Chain' (fun x y => x < y) (runCreates (EventManager.new c₁) cargs) ∧
    (runCreates (EventManager.new c₁) cargs).Nodup ∧
    runMints (TicketNFT.new c₂ nm sym) margs = idRange 1 margs.length ∧
    List.Chain' (fun x y => x < y) (runMints (TicketNFT.new c₂ nm sym) margs) ∧
    (runMints (TicketNFT.new c₂ nm sym) margs).Nodup := by
  have hc : runCreates (EventManager.new c₁) cargs = idRange 1 cargs.length :=
    runCreates_eq cargs (EventManager.new c₁)
  have hm : runMints (TicketNFT.new c₂ nm sym) margs = idRange 1 margs.length :=
    runMints_eq margs (TicketNFT.new c₂ nm sym)
  refine ⟨hc, ?_, ?_, hm, ?_, ?_⟩
  · rw [hc]; exact idRange_chain cargs.length 1
  · rw [hc]; exact idRange_nodup cargs.length 1
  · rw [hm]; exact idRange_chain margs.length 1
  · rw [hm]; exact idRange_nodup margs.length 1

/-- Claim C5: `deactivate_event` invoked by any caller other than the
recorded host of the event (which also covers an unknown `event_id`, whose
lookup yields no host at all) returns false and leaves the entire registry
state unchanged. -/
theorem deactivate_event_unauthorized_no_change (s : EventManager)
    (caller event_id : Nat)
    (h : (lookupA s.events event_id).map Event.host ≠ some caller) :
    deactivate_event s caller event_id = (false, s) := by
  cases hl : lookupA s.events event_id with
  | none => simp only [deactivate_event, hl]
  | some e =>
    rw [hl] at h
    simp only [Option.map_some', ne_eq, Option.some.injEq] at h
    simp only [deactivate_event, hl]
    rw [if_neg h]

/-- Witness for C5: on the registry `s₁` whose event 1 has host 1, caller 2
cannot deactivate event 1, and state is unchanged. -/
theorem deactivate_event_unauthorized_no_change_witness :
    (lookupA s₁.events 1).map Event.host ≠ some 2 ∧
    deactivate_event s₁ 2 1 = (false, s₁) :=
  ⟨by decide, deactivate_event_unauthorized_no_change s₁ 2 1 (by decide)⟩

/-- Claim C6: `deactivate_event` by the host is idempotent: called twice by
the host on the same existing event it returns true both times, and after
either call the stored event's active flag is false. -/
theorem deactivate_event_host_idempotent (s : EventManager)
    (caller event_id : Nat) (e : Event)
    (hl : lookupA s.events event_id = some e) (hh : e.host = caller) :
    (deactivate_event s caller event_id).1 = true ∧
    (lookupA (deactivate_event s caller event_id).2.events event_id).map
      Event.active = some false ∧
    (deactivate_event (deactivate_event s caller event_id).2 caller event_id).1 = true ∧
    (lookupA (deactivate_event (deactivate_event s caller event_id).2 caller
      event_id).2.events event_id).map Event.active = some false := by
  have h1 : deactivate_event s caller event_id =
      (true, { s with events := insertA s.events event_id { e with active := false } }) := by
    simp only [deactivate_event, hl]
    rw [if_pos hh]
  have hl2 : lookupA (insertA s.events event_id { e with active := false }) event_id =
      some { e with active := false } := lookupA_insertA_self s.events event_id _
  have h2 : deactivate_event
      { s with events := insertA s.events event_id { e with active := false } }
      caller event_id =
      (true, { s with events := insertA (insertA s.events event_id
        { e with active := false }) event_id { e with active := false } }) := by
    simp only [deactivate_event, hl2]
    rw [if_pos hh]
  refine ⟨?_, ?_, ?_, ?_⟩
  · rw [h1]
  · rw [h1, hl2]
    rfl
  · rw [h1, h2]
  · rw [h1, h2, lookupA_insertA_self]
    rfl

/-- Witness for C6: host 1 deactivates event 1 of `s₁` twice; both calls
return true and the stored flag is false after each. -/
theorem deactivate_event_host_idempotent_witness :
    lookupA s₁.events 1 = some ev₁ ∧ ev₁.host = 1 ∧
    ((deactivate_event s₁ 1 1).1 = true ∧
      (lookupA (deactivate_event s₁ 1 1).2.events 1).map Event.active = some false ∧
      (deactivate_event (deactivate_event s₁ 1 1).2 1 1).1 = true ∧
      (lookupA (deactivate_event (deactivate_event s₁ 1 1).2 1
        1).2.events 1).map Event.active = some false) :=
  ⟨rfl, rfl, deactivate_event_host_idempotent s₁ 1 1 ev₁ rfl rfl⟩

/-- Claim C7: `mint_ticket` always succeeds for every recipient and uri
without validation (after any prior sequence of mints on a fresh issuer),
returns a strictly positive token id, and afterwards `get_owner_of` of that
id returns the recipient and `get_token_uri` of that id returns the uri. -/
theorem mint_ticket_total_and_records (c : Nat) (nm sym : String)
    (margs : List (Nat × String)) (recipient : Nat) (uri : String) :
    0 < (mint_ticket (runMintsState (TicketNFT.new c nm sym) margs) recipient uri).1 ∧
    get_owner_of (mint_ticket (runMintsState (TicketNFT.new c nm sym) margs)
        recipient uri).2
      (mint_ticket (runMintsState (TicketNFT.new c nm sym) margs) recipient uri).1 =
      some recipient ∧
    get_token_uri (mint_ticket (runMintsState (TicketNFT.new c nm sym) margs)
        recipient uri).2
      (mint_ticket (runMintsState (TicketNFT.new c nm sym) margs) recipient uri).1 =
      some uri := by
  refine ⟨?_, ?_, ?_⟩
  · exact Nat.lt_of_lt_of_le Nat.zero_lt_one
      (runMintsState_counter margs (TicketNFT.new c nm sym))
  · exact lookupA_insertA_self _ _ _
  · exact lookupA_insertA_self _ _ _

/-- Claim C8 (scenario): host 1 creates an event on a fresh registry
(state `s₁`, event id 1); the non-host caller 2 calls `deactivate_event`,
which returns false and changes nothing, and the stored event's active
flag is still true.  Note that `get_event_details` returns an
`EventDetails` value, which has no `active` field at all (lib.rs lines
21-27), even though the repo's own tests read `.active` from it (lib.rs
lines 218-219); the last conjunct records what `get_event_details`
actually returns. -/
theorem nonhost_deactivate_scenario_active_preserved :
    (deactivate_event s₁ 2 1).1 = false ∧
    (deactivate_event s₁ 2 1).2 = s₁ ∧
    (lookupA s₁.events 1).map Event.active = some true ∧
    get_event_details s₁ 1 = some d₀ :=
  ⟨rfl, rfl, rfl, rfl⟩

/-- Claim C9: every read message (`get_event_details`,
`get_event_attendees`, `get_ticket_nft_address`, `get_registered_events`
on the registry; `get_owner_of`, `get_token_uri` on the issuer) leaves the
entire state of its component unchanged. -/
theorem read_messages_preserve_state (s : EventManager) (op : RegOp)
    (t : TicketNFT) (nop : NftOp)
    (h1 : op.isRead = true) (h2 : nop.isRead = true) :
    (regStep s op).2 = s ∧ (nftStep t nop).2 = t := by
  constructor
  · cases op <;> first | rfl | simp [RegOp.isRead] at h1
  · cases nop <;> first | rfl | simp [NftOp.isRead] at h2

/-- Witness for C9: `get_event_details` on `s₁` and `get_owner_of` on `t₀`
leave their states unchanged. -/
theorem read_messages_preserve_state_witness :
    (RegOp.getDetails 1).isRead = true ∧ (NftOp.getOwner 1).isRead = true ∧
    ((regStep s₁ (RegOp.getDetails 1)).2 = s₁ ∧
      (nftStep t₀ (NftOp.getOwner 1)).2 = t₀) :=
  ⟨rfl, rfl, read_messages_preserve_state s₁ (RegOp.getDetails 1) t₀
    (NftOp.getOwner 1) rfl rfl⟩

/-- Claim C10: a successful `deactivate_event` by the host returns true and
modifies only the active flag of the named event: the updated state is the
old state with exactly that one entry of the events map replaced by the
same event with `active := false` (so its details, attendees,
tickets_sold, host and issuer address, every other event, the id counter,
the owner, and the whole UserRegistry are unchanged). -/
theorem deactivate_event_host_frame (s : EventManager) (caller event_id : Nat)
    (e : Event) (hl : lookupA s.events event_id = some e) (hh : e.host = caller) :
    deactivate_event s caller event_id =
      (true, { s with events := insertA s.events event_id { e with active := false } }) ∧
    (deactivate_event s caller event_id).2.next_event_id = s.next_event_id ∧
    (deactivate_event s caller event_id).2.user_registered_events =
      s.user_registered_events ∧
    (deactivate_event s caller event_id).2.owner = s.owner ∧
    lookupA (deactivate_event s caller event_id).2.events event_id =
      some { e with active := false } := by
  have h1 : deactivate_event s caller event_id =
      (true, { s with events := insertA s.events event_id { e with active := false } }) := by
    simp only [deactivate_event, hl]
    rw [if_pos hh]
  refine ⟨h1, ?_, ?_, ?_, ?_⟩ <;> rw [h1]
  · exact lookupA_insertA_self s.events event_id _

/-- Witness for C10: host 1 deactivates event 1 of `s₁`; the result is true
and the state differs only in that event's active flag. -/
theorem deactivate_event_host_frame_witness :
    lookupA s₁.events 1 = some ev₁ ∧ ev₁.host = 1 ∧
    (deactivate_event s₁ 1 1 =
        (true, { s₁ with events := insertA s₁.events 1 { ev₁ with active := false } }) ∧
      (deactivate_event s₁ 1 1).2.next_event_id = s₁.next_event_id ∧
      (deactivate_event s₁ 1 1).2.user_registered_events = s₁.user_registered_events ∧
      (deactivate_event s₁ 1 1).2.owner = s₁.owner ∧
      lookupA (deactivate_event s₁ 1 1).2.events 1 = some { ev₁ with active := false }) :=
  ⟨rfl, rfl, deactivate_event_host_frame s₁ 1 1 ev₁ rfl rfl⟩
